import Mathlib

/-!
Verification of the dog-breed RAG repository (rag_module.py, scrapper.py).

The data model and operations below are shallow embeddings of the Python
source.  Components whose code lives in the third-party haystack library
(the in-memory embedding retriever, the sentence-transformer embedders and
the chat prompt renderer) are modelled from the specification, as marked in
their doc comments; everything else is translated from the repository code.
-/

namespace Capstone

/-- A breed document as used by `rag_module.py` and `scrapper.py`: the
haystack `Document` restricted to the fields this repository reads or
writes.  `meta` keys that may be absent are `Option`s; `embedding` is the
at-most-one embedding vector haystack attaches to a document. -/
structure Document where
  content : String
  title : Option String
  url : Option String
  source : Option String
  related_pages_count : Option Nat
  related_pages : Option (List (String × String))
  embedding : Option (List ℚ)
deriving DecidableEq

/-- Modelled from the spec: inner-product similarity between a query vector
and a stored embedding ("computes similarity (cosine or inner product)
between the query vector and every stored embedding"). -/
def dot (v w : List ℚ) : ℚ := (List.zipWith (fun a b => a * b) v w).sum

/-- Similarity score of a stored document against a query vector. -/
def docScore (q : List ℚ) (d : Document) : ℚ := dot q (d.embedding.getD [])

/-- Ranking order on (score, insertion index) pairs: higher score first,
ties broken by smaller (earlier) insertion index. -/
def rankLe (p q : ℚ × ℕ) : Prop := q.1 < p.1 ∨ (p.1 = q.1 ∧ p.2 ≤ q.2)

instance : DecidableRel rankLe := fun p q => by
  unfold rankLe; infer_instance

/-- Insert one scored document into a ranked list, keeping existing entries
that rank at or before it in front (stable insertion). -/
def rankInsert (a : Document × ℚ × ℕ) :
    List (Document × ℚ × ℕ) → List (Document × ℚ × ℕ)
  | [] => [a]
  | b :: l => if rankLe b.2 a.2 then b :: rankInsert a l else a :: b :: l

/-- Stable sort of scored documents by non-increasing score, ties by
insertion order. -/
def rankSort (l : List (Document × ℚ × ℕ)) : List (Document × ℚ × ℕ) :=
  l.foldr rankInsert []

/-- Score every stored document against the query vector, remembering each
document's insertion index. -/
def rankedDocs (q : List ℚ) (store : List Document) :
    List (Document × ℚ × ℕ) :=
  store.enum.map (fun p => (p.2, docScore q p.2, p.1))

/-- Modelled from the spec: the haystack `InMemoryEmbeddingRetriever`
(library code, not in this repository) — "computes similarity ... between
the query vector and every stored embedding, returns the k highest-scoring
documents, ties broken by original insertion order", keeping the scores and
insertion indices. -/
def retrieveRanked (q : List ℚ) (k : ℕ) (store : List Document) :
    List (Document × ℚ × ℕ) :=
  (rankSort (rankedDocs q store)).take k

/-- Modelled from the spec: `retrieve(query_vector, k)` — the k
highest-scoring stored documents, ties broken by insertion order. -/
def retrieve (q : List ℚ) (k : ℕ) (store : List Document) : List Document :=
  (retrieveRanked q k store).map (fun x => x.1)

theorem rankLe_total (p q : ℚ × ℕ) : rankLe p q ∨ rankLe q p := by
  unfold rankLe
  rcases lt_trichotomy p.1 q.1 with h | h | h
  · exact Or.inr (Or.inl h)
  · rcases Nat.le_total p.2 q.2 with h2 | h2
    · exact Or.inl (Or.inr ⟨h, h2⟩)
    · exact Or.inr (Or.inr ⟨h.symm, h2⟩)
  · exact Or.inl (Or.inl h)

theorem rankLe_trans {p q r : ℚ × ℕ} (h1 : rankLe p q) (h2 : rankLe q r) :
    rankLe p r := by
  unfold rankLe at *
  rcases h1 with h1 | ⟨h1, h1n⟩
  · rcases h2 with h2 | ⟨h2, _⟩
    · exact Or.inl (lt_trans h2 h1)
    · exact Or.inl (h2 ▸ h1)
  · rcases h2 with h2 | ⟨h2, h2n⟩
    · exact Or.inl (h1 ▸ h2)
    · exact Or.inr ⟨h1.trans h2, le_trans h1n h2n⟩

theorem rankInsert_length (a : Document × ℚ × ℕ)
    (l : List (Document × ℚ × ℕ)) :
    (rankInsert a l).length = l.length + 1 := by
  induction l with
  | nil => rfl
  | cons b l ih =>
    unfold rankInsert
    by_cases h : rankLe b.2 a.2
    · simp [h, ih]
    · simp [h]

theorem rankInsert_perm (a : Document × ℚ × ℕ)
    (l : List (Document × ℚ × ℕ)) : List.Perm (rankInsert a l) (a :: l) := by
  induction l with
  | nil => rfl
  | cons b l ih =>
    unfold rankInsert
    by_cases h : rankLe b.2 a.2
    · simp only [h, if_true]
      exact (ih.cons b).trans (List.Perm.swap a b l)
    · simp [h]

theorem rankSort_perm (l : List (Document × ℚ × ℕ)) : List.Perm (rankSort l) l := by
  induction l with
  | nil => rfl
  | cons a l ih =>
    exact (rankInsert_perm a (rankSort l)).trans (ih.cons a)

theorem rankSort_length (l : List (Document × ℚ × ℕ)) :
    (rankSort l).length = l.length :=
  (rankSort_perm l).length_eq

theorem rankInsert_pairwise (a : Document × ℚ × ℕ)
    {l : List (Document × ℚ × ℕ)}
    (h : List.Pairwise (fun x y => rankLe x.2 y.2) l) :
    List.Pairwise (fun x y => rankLe x.2 y.2) (rankInsert a l) := by
  induction l with
  | nil => simp [rankInsert]
  | cons b l ih =>
    rcases List.pairwise_cons.mp h with ⟨hb, hl⟩
    unfold rankInsert
    by_cases hba : rankLe b.2 a.2
    · simp only [hba, if_true]
      refine List.pairwise_cons.mpr ⟨?_, ih hl⟩
      intro x hx
      rcases List.mem_cons.mp (((rankInsert_perm a l).mem_iff).mp hx) with hx | hx
      · exact hx ▸ hba
      · exact hb x hx
    · simp only [hba, if_false]
      refine List.pairwise_cons.mpr ⟨?_, h⟩
      intro x hx
      rcases List.mem_cons.mp hx with hx | hx
      · subst hx
        rcases rankLe_total a.2 x.2 with hax | hax
        · exact hax
        · exact absurd hax hba
      · have hab : rankLe a.2 b.2 := by
          rcases rankLe_total a.2 b.2 with hax | hax
          · exact hax
          · exact absurd hax hba
        exact rankLe_trans hab (hb x hx)

theorem rankSort_pairwise (l : List (Document × ℚ × ℕ)) :
    List.Pairwise (fun x y => rankLe x.2 y.2) (rankSort l) := by
  induction l with
  | nil => exact List.Pairwise.nil
  | cons a l ih => exact rankInsert_pairwise a ih

theorem retrieveRanked_mem {q : List ℚ} {k : ℕ} {store : List Document}
    {x : Document × ℚ × ℕ} (hx : x ∈ retrieveRanked q k store) :
    store[x.2.2]? = some x.1 ∧ x.2.1 = docScore q x.1 := by
  have hx2 : x ∈ rankSort (rankedDocs q store) :=
    List.take_subset k _ hx
  have hx3 : x ∈ rankedDocs q store :=
    ((rankSort_perm _).mem_iff).mp hx2
  rcases List.mem_map.mp hx3 with ⟨p, hp, hpx⟩
  have hget : store[p.1]? = some p.2 := List.mem_enum_iff_getElem?.mp hp
  subst hpx
  exact ⟨hget, rfl⟩

/-- C1: on a store holding at least one document, `retrieve` with
k ≤ store size returns exactly k documents; the ranked retrieval list is
sorted by non-increasing similarity score with ties broken by the
documents' original insertion order, and each returned entry carries the
similarity score of a genuinely stored document at its insertion index. -/
theorem retrieve_topk (q : List ℚ) (k : ℕ) (store : List Document)
    (_hne : 0 < store.length) (hk : k ≤ store.length) :
    (retrieve q k store).length = k ∧
    List.Pairwise (fun x y => rankLe x.2 y.2) (retrieveRanked q k store) ∧
    ∀ x ∈ retrieveRanked q k store,
      store[x.2.2]? = some x.1 ∧ x.2.1 = docScore q x.1 := by
  refine ⟨?_, ?_, ?_⟩
  · have hlen : (rankSort (rankedDocs q store)).length = store.length := by
      rw [rankSort_length]
      simp [rankedDocs]
    simp [retrieve, retrieveRanked, hlen, hk]
  · exact (rankSort_pairwise (rankedDocs q store)).sublist
      (List.take_sublist k _)
  · intro x hx
    exact retrieveRanked_mem hx

/-- C5: `retrieve` on an empty store returns the empty list, for every
query vector and every k. -/
theorem retrieve_empty_store (q : List ℚ) (k : ℕ) :
    retrieve q k [] = [] := by
  simp [retrieve, retrieveRanked, rankedDocs, rankSort]

/-- Two concrete stored documents used to exercise the retriever. -/
def demoDoc1 : Document :=
  { content := "Friendly, outgoing, and high-energy."
    title := some "Labrador Retriever"
    url := none
    source := some "Built-in"
    related_pages_count := none
    related_pages := none
    embedding := some [1, 0] }

def demoDoc2 : Document :=
  { content := "Curious, friendly, and social."
    title := some "Beagle"
    url := none
    source := some "Built-in"
    related_pages_count := none
    related_pages := none
    embedding := some [0, 1] }

def demoStore : List Document := [demoDoc1, demoDoc2]

/-- Witness for C1 at a concrete store, query and k. -/
theorem retrieve_topk_witness :
    0 < demoStore.length ∧ 1 ≤ demoStore.length ∧
    ((retrieve [0, 2] 1 demoStore).length = 1 ∧
     List.Pairwise (fun x y => rankLe x.2 y.2)
       (retrieveRanked [0, 2] 1 demoStore) ∧
     ∀ x ∈ retrieveRanked [0, 2] 1 demoStore,
       demoStore[x.2.2]? = some x.1 ∧ x.2.1 = docScore [0, 2] x.1) :=
  ⟨by decide, by decide,
   retrieve_topk [0, 2] 1 demoStore (by decide) (by decide)⟩

/-- The constant instruction text of the chat prompt template in
`DogBreedRAG.__init__`, up to the document loop (apostrophes elided from
the prose). -/
def promptHeader : String :=
  "You are a warm, friendly assistant that recommends dog breeds based on a users lifestyle.\n\nTASK: Based on the breed information provided, answer the users question.\n\nINSTRUCTIONS:\n- Provide 1-3 breed recommendations with brief explanations\n- Each recommendation should list 2-4 key reasons why it is suitable\n- Consider the users lifestyle, space, energy level, and preferences\n- If information does not directly address the question, make reasonable inferences\n- Be personable and encouraging\n\nBREED INFORMATION:\n"

/-- One iteration of the template loop: one line rendering a retrieved
document's title (meta key `title`) and content. -/
def renderDoc (d : Document) : String :=
  "- " ++ d.title.getD "" ++ ": " ++ d.content ++ "\n"

/-- The document loop of the template: one line per retrieved document, in
order. -/
def renderDocs : List Document → String
  | [] => ""
  | d :: ds => renderDoc d ++ renderDocs ds

/-- Modelled from the spec: the `ChatPromptBuilder` rendering of the
template of `DogBreedRAG.__init__` — fixed instruction text, one line per
retrieved document, then the user question slot ("renders retrieved
documents and the user question into a single instruction block ...
following a fixed natural-language template"). -/
def renderPrompt (docs : List Document) (question : String) : String :=
  promptHeader ++ renderDocs docs ++ "\nUSER QUESTION: " ++ question ++
    "\n\nRESPONSE:"

/-- `sub` occurs verbatim, as a contiguous substring, in `s`. -/
def strContains (s sub : String) : Prop := List.IsInfix sub.data s.data

theorem renderDocs_split {d : Document} {docs : List Document}
    (hd : d ∈ docs) :
    ∃ u v, (renderDocs docs).data = u ++ (renderDoc d).data ++ v := by
  induction docs with
  | nil => cases hd
  | cons a ds ih =>
    rcases List.mem_cons.mp hd with h | h
    · subst h
      exact ⟨[], (renderDocs ds).data, by
        simp [renderDocs, String.data_append]⟩
    · rcases ih h with ⟨u, v, huv⟩
      exact ⟨(renderDoc a).data ++ u, v, by
        simp [renderDocs, String.data_append, huv]⟩

/-- C2: the assembled prompt contains each retrieved document's title and
body verbatim as substrings and contains the question verbatim, and prompt
assembly is deterministic: equal document lists and questions give the
identical rendered prompt. -/
theorem prompt_contains_inputs (docs : List Document) (question : String)
    {d : Document} (hd : d ∈ docs) :
    strContains (renderPrompt docs question) (d.title.getD "") ∧
    strContains (renderPrompt docs question) d.content ∧
    strContains (renderPrompt docs question) question ∧
    (∀ docs2 q2, docs2 = docs → q2 = question →
      renderPrompt docs2 q2 = renderPrompt docs question) := by
  rcases renderDocs_split hd with ⟨u, v, huv⟩
  have hdocs : List.IsInfix (renderDocs docs).data
      (renderPrompt docs question).data :=
    ⟨promptHeader.data,
     ("\nUSER QUESTION: " ++ question ++ "\n\nRESPONSE:").data, by
      simp [renderPrompt, String.data_append]⟩
  have hdoc : List.IsInfix (renderDoc d).data (renderDocs docs).data :=
    ⟨u, v, huv.symm⟩
  refine ⟨?_, ?_, ?_, ?_⟩
  · refine (List.IsInfix.trans ?_ hdoc).trans hdocs
    exact ⟨"- ".data, (": " ++ d.content ++ "\n").data, by
      simp [renderDoc, String.data_append]⟩
  · refine (List.IsInfix.trans ?_ hdoc).trans hdocs
    exact ⟨("- " ++ d.title.getD "" ++ ": ").data, "\n".data, by
      simp [renderDoc, String.data_append]⟩
  · exact ⟨(promptHeader ++ renderDocs docs ++ "\nUSER QUESTION: ").data,
      "\n\nRESPONSE:".data, by simp [renderPrompt, String.data_append]⟩
  · intro docs2 q2 h1 h2
    rw [h1, h2]

/-- Witness for C2 on the spec's own example: document titled "Beagle"
with content "Curious..." and question "good with kids?". -/
theorem prompt_contains_inputs_witness :
    demoDoc2 ∈ [demoDoc2] ∧
    (strContains (renderPrompt [demoDoc2] "good with kids?")
       (demoDoc2.title.getD "") ∧
     strContains (renderPrompt [demoDoc2] "good with kids?")
       demoDoc2.content ∧
     strContains (renderPrompt [demoDoc2] "good with kids?")
       "good with kids?" ∧
     (∀ docs2 q2, docs2 = [demoDoc2] → q2 = "good with kids?" →
       renderPrompt docs2 q2 = renderPrompt [demoDoc2] "good with kids?")) :=
  ⟨List.mem_singleton.mpr rfl,
   prompt_contains_inputs [demoDoc2] "good with kids?"
     (List.mem_singleton.mpr rfl)⟩

/-- One JSON record of the scraped-data file: the keys written by
`save_documents_to_json` / read by `DogBreedRAG.__init__`, each `Option`al
since JSON objects may lack keys. -/
structure RawRecord where
  title : Option String
  content : Option String
  url : Option String
  source : Option String
  related_pages_count : Option Nat
  related_pages : Option (List (String × String))
deriving DecidableEq

/-- The ways `DogBreedRAG.__init__` can fail: the credential `ValueError`,
a `json.load` failure on a malformed file, and the `KeyError` from
`item["content"]` on a record without a content key. -/
inductive InitError where
  | config
  | jsonParse
  | missingContentKey
deriving DecidableEq

/-- Loading one record in `DogBreedRAG.__init__`:
`Document(content=item["content"], meta={"title": item.get("title",
"Unknown"), "url": item.get("url", ""), "source": item.get("source",
"Scraped")})`; a record without a content key raises. -/
def loadDocOfRecord (r : RawRecord) : Except InitError Document :=
  match r.content with
  | none => .error .missingContentKey
  | some c =>
    .ok { content := c
          title := some (r.title.getD "Unknown")
          url := some (r.url.getD "")
          source := some (r.source.getD "Scraped")
          related_pages_count := none
          related_pages := none
          embedding := none }

/-- The embedding model identifier bound to both the document embedder and
the query text embedder in `DogBreedRAG.__init__`. -/
def modelId : String := "sentence-transformers/all-MiniLM-L6-v2"

/-- Modelled from the spec: the sentence-transformer document embedder
(library code) attaches to each document exactly one embedding vector,
computed from its content by the embedding model it is bound to.
`embedFn model text` abstracts the model evaluation. -/
def embedDoc (embedFn : String → String → List ℚ) (model : String)
    (d : Document) : Document :=
  { d with embedding := some (embedFn model d.content) }

/-- The five-document built-in fallback dataset of
`DogBreedRAG.__init__`. -/
def fallbackDocs : List Document :=
  [ { content := "Friendly, outgoing, and high-energy. Great for active families and training, needs daily exercise and enjoys retrieving games."
      title := some "Labrador Retriever"
      url := none
      source := some "Built-in"
      related_pages_count := none
      related_pages := none
      embedding := none },
    { content := "Affectionate, patient, and eager to please. Excellent with kids, requires regular grooming and lots of activity."
      title := some "Golden Retriever"
      url := none
      source := some "Built-in"
      related_pages_count := none
      related_pages := none
      embedding := none },
    { content := "Compact, calm, and good for apartment living. Moderate exercise needs, sensitive to heat and benefits from short walks."
      title := some "French Bulldog"
      url := none
      source := some "Built-in"
      related_pages_count := none
      related_pages := none
      embedding := none },
    { content := "Highly intelligent and trainable. Low-shedding coat but needs regular grooming, enjoys mental and physical activity."
      title := some "Poodle (Standard)"
      url := none
      source := some "Built-in"
      related_pages_count := none
      related_pages := none
      embedding := none },
    { content := "Curious, friendly, and social. Moderate exercise needs, can be vocal and enjoys scent games."
      title := some "Beagle"
      url := none
      source := some "Built-in"
      related_pages_count := none
      related_pages := none
      embedding := none } ]

/-- The state a successful `DogBreedRAG.__init__` builds: the document
store after embedding, and the model identifiers the document embedder and
the query text embedder are bound to. -/
structure RAGState where
  store : List Document
  docEmbedderModel : String
  textEmbedderModel : String
deriving DecidableEq

/-- The state built from a loaded document list: documents embedded with
the fixed model, both embedders bound to that model. -/
def mkState (embedFn : String → String → List ℚ) (docs : List Document) :
    RAGState :=
  { store := docs.map (embedDoc embedFn modelId)
    docEmbedderModel := modelId
    textEmbedderModel := modelId }

/-- Python `str.strip()`: remove leading and trailing whitespace. -/
def pyStrip (s : String) : String :=
  ⟨((s.data.dropWhile Char.isWhitespace).reverse.dropWhile
      Char.isWhitespace).reverse⟩

/-- `DogBreedRAG.__init__`: validate the credential, load documents
(scraped file if requested and present, else the built-in fallback),
embed them and bind both embedders to `modelId`.  `env` is the value of
`OPENAI_API_KEY` (`none` = unset); `scrapedFile` is `none` when
`dog_breeds_rkc.json` does not exist, `some (.error ())` when it exists
but `json.load` fails, `some (.ok records)` when it parses. -/
def loadDataset (scrapedFile : Option (Except Unit (List RawRecord)))
    (useScrapedData : Bool) : Except InitError (List Document) :=
  if useScrapedData then
    match scrapedFile with
    | some (.ok data) => data.mapM loadDocOfRecord
    | some (.error _) => .error .jsonParse
    | none => .ok fallbackDocs
  else .ok fallbackDocs

def dogBreedRAGInit (embedFn : String → String → List ℚ)
    (env : Option String)
    (scrapedFile : Option (Except Unit (List RawRecord)))
    (useScrapedData : Bool) : Except InitError RAGState :=
  let apiKey := pyStrip (env.getD "")
  if apiKey = "" ∨ apiKey = "your-key" then .error .config
  else Except.map (mkState embedFn) (loadDataset scrapedFile useScrapedData)

/-- C3: with `OPENAI_API_KEY` unset, blank after stripping, or the
placeholder "your-key", `DogBreedRAG.__init__` fails with the credential
error, whatever the data file holds and whatever the embedding model would
compute — so no store, embedder or generator is built and no network call
is made. -/
theorem init_rejects_bad_key (embedFn : String → String → List ℚ)
    (env : Option String)
    (scrapedFile : Option (Except Unit (List RawRecord)))
    (useScrapedData : Bool)
    (h : pyStrip (env.getD "") = "" ∨ pyStrip (env.getD "") = "your-key") :
    dogBreedRAGInit embedFn env scrapedFile useScrapedData =
      .error .config := by
  unfold dogBreedRAGInit
  simp [h]

/-- A concrete embedding function for witnesses. -/
def constEmbed : String → String → List ℚ := fun _ _ => [1]

/-- Witness for C3: the key set to the placeholder (with surrounding
whitespace) is rejected and construction fails with the credential
error. -/
theorem init_rejects_bad_key_witness :
    (pyStrip ((some "  your-key " : Option String).getD "") = "" ∨
      pyStrip ((some "  your-key " : Option String).getD "") = "your-key") ∧
    dogBreedRAGInit constEmbed (some "  your-key ") none false =
      Except.error InitError.config :=
  ⟨by decide,
   init_rejects_bad_key constEmbed (some "  your-key ") none false
     (by decide)⟩

/-- Counterexample to C4 as stated: with a valid credential, scraped mode
and a data file that exists but is malformed (a `json.load` failure),
construction fails with the parse error instead of recovering to the
built-in fallback dataset. -/
theorem init_malformed_file_raises :
    dogBreedRAGInit constEmbed (some "sk-test-123")
      (some (Except.error ())) true = Except.error InitError.jsonParse := by
  rfl

/-- C4 amended: with a valid credential and `use_scraped_data=True`, a
missing data file makes construction fall back to the built-in 5-document
dataset, but a malformed (unparseable) file makes construction fail with
the parse error instead. -/
theorem init_missing_file_fallback (embedFn : String → String → List ℚ)
    (env : Option String)
    (h : ¬(pyStrip (env.getD "") = "" ∨ pyStrip (env.getD "") = "your-key")) :
    dogBreedRAGInit embedFn env none true = .ok (mkState embedFn fallbackDocs) ∧
    (mkState embedFn fallbackDocs).store.length = 5 ∧
    dogBreedRAGInit embedFn env (some (Except.error ())) true =
      .error .jsonParse := by
  refine ⟨?_, by simp [mkState, fallbackDocs], ?_⟩ <;>
    simp [dogBreedRAGInit, h, loadDataset, Except.map]

/-- Witness for C4 (amended) at a concrete valid credential. -/
theorem init_missing_file_fallback_witness :
    (¬(pyStrip ((some "sk-test-123" : Option String).getD "") = "" ∨
        pyStrip ((some "sk-test-123" : Option String).getD "") = "your-key")) ∧
    (dogBreedRAGInit constEmbed (some "sk-test-123") none true =
        .ok (mkState constEmbed fallbackDocs) ∧
      (mkState constEmbed fallbackDocs).store.length = 5 ∧
      dogBreedRAGInit constEmbed (some "sk-test-123")
          (some (Except.error ())) true = .error .jsonParse) :=
  ⟨by decide, init_missing_file_fallback constEmbed (some "sk-test-123")
    (by decide)⟩

theorem init_ok_shape {embedFn : String → String → List ℚ}
    {env : Option String}
    {scrapedFile : Option (Except Unit (List RawRecord))}
    {useScrapedData : Bool} {st : RAGState}
    (h : dogBreedRAGInit embedFn env scrapedFile useScrapedData = .ok st) :
    ∃ docs, st = mkState embedFn docs := by
  unfold dogBreedRAGInit at h
  by_cases hk : pyStrip (env.getD "") = "" ∨ pyStrip (env.getD "") = "your-key"
  · simp [hk] at h
  · simp only [hk, if_false] at h
    cases hld : loadDataset scrapedFile useScrapedData with
    | error e => rw [hld] at h; cases h
    | ok docs =>
      rw [hld] at h
      simp only [Except.map] at h
      cases h
      exact ⟨docs, rfl⟩

/-- C8: whenever construction succeeds, the document embedder and the
query text embedder are bound to the same model identifier, and every
document written to the store carries exactly one embedding vector —
the one computed from its content by that model. -/
theorem store_embedding_invariant (embedFn : String → String → List ℚ)
    (env : Option String)
    (scrapedFile : Option (Except Unit (List RawRecord)))
    (useScrapedData : Bool) (st : RAGState)
    (h : dogBreedRAGInit embedFn env scrapedFile useScrapedData = .ok st) :
    st.docEmbedderModel = st.textEmbedderModel ∧
    ∀ d ∈ st.store, d.embedding = some (embedFn st.docEmbedderModel d.content) := by
  rcases init_ok_shape h with ⟨docs, rfl⟩
  refine ⟨rfl, ?_⟩
  intro d hd
  rcases List.mem_map.mp hd with ⟨d0, _, rfl⟩
  rfl

/-- Witness for C8 on a concrete successful construction (fallback data,
valid credential). -/
theorem store_embedding_invariant_witness :
    dogBreedRAGInit constEmbed (some "sk-test-123") none false =
      .ok (mkState constEmbed fallbackDocs) ∧
    ((mkState constEmbed fallbackDocs).docEmbedderModel =
       (mkState constEmbed fallbackDocs).textEmbedderModel ∧
     ∀ d ∈ (mkState constEmbed fallbackDocs).store,
       d.embedding = some (constEmbed
         (mkState constEmbed fallbackDocs).docEmbedderModel d.content)) :=
  ⟨by rfl,
   store_embedding_invariant constEmbed (some "sk-test-123") none false
     (mkState constEmbed fallbackDocs) (by rfl)⟩

/-- One record written by `save_documents_to_json` for a document: every
key present, metadata defaults filled in when absent. -/
def saveRecord (doc : Document) : RawRecord :=
  { title := some (doc.title.getD "Unknown")
    content := some doc.content
    url := some (doc.url.getD "")
    source := some (doc.source.getD "Royal Kennel Club")
    related_pages_count := some (doc.related_pages_count.getD 0)
    related_pages := some (doc.related_pages.getD []) }

/-- `save_documents_to_json`: the list of JSON records written for the
scraped documents. -/
def save_documents_to_json (documents : List Document) : List RawRecord :=
  documents.map saveRecord

/-- The document `DogBreedRAG.__init__` reconstructs from the record saved
for `d`. -/
def reloadDoc (d : Document) : Document :=
  { content := d.content
    title := some (d.title.getD "Unknown")
    url := some (d.url.getD "")
    source := some (d.source.getD "Royal Kennel Club")
    related_pages_count := none
    related_pages := none
    embedding := none }

theorem loadDataset_ok_records (data : List RawRecord) :
    loadDataset (some (Except.ok data)) true = data.mapM loadDocOfRecord :=
  rfl

theorem load_save (docs : List Document) :
    (save_documents_to_json docs).mapM loadDocOfRecord =
      Except.ok (docs.map reloadDoc) := by
  induction docs with
  | nil => rfl
  | cons d ds ih =>
    simp only [save_documents_to_json, List.map_cons, List.mapM_cons] at *
    rw [ih]
    rfl

/-- C10: the writer/loader round trip. `save_documents_to_json` writes one
record per document carrying all six keys (defaults filled in when
metadata is absent); `DogBreedRAG.__init__` loads that record list without
error, and each reconstructed document keeps the saved content while its
title, url and source metadata equal the saved values. -/
theorem save_load_roundtrip (docs : List Document)
    (env : Option String)
    (h : ¬(pyStrip (env.getD "") = "" ∨ pyStrip (env.getD "") = "your-key")) :
    (save_documents_to_json docs).length = docs.length ∧
    (∀ r ∈ save_documents_to_json docs,
      r.title.isSome ∧ r.content.isSome ∧ r.url.isSome ∧ r.source.isSome ∧
      r.related_pages_count.isSome ∧ r.related_pages.isSome) ∧
    (save_documents_to_json docs).mapM loadDocOfRecord =
      Except.ok (docs.map reloadDoc) ∧
    (∀ d ∈ docs,
      (reloadDoc d).content = d.content ∧
      (reloadDoc d).title = (saveRecord d).title ∧
      (reloadDoc d).url = (saveRecord d).url ∧
      (reloadDoc d).source = (saveRecord d).source ∧
      (saveRecord d).content = some (reloadDoc d).content) ∧
    (∀ embedFn : String → String → List ℚ,
      dogBreedRAGInit embedFn env
          (some (Except.ok (save_documents_to_json docs))) true =
        Except.ok (mkState embedFn (docs.map reloadDoc))) := by
  refine ⟨by simp [save_documents_to_json], ?_, load_save docs, ?_, ?_⟩
  · intro r hr
    rcases List.mem_map.mp hr with ⟨d, _, rfl⟩
    simp [saveRecord]
  · intro d _
    simp [reloadDoc, saveRecord]
  · intro embedFn
    unfold dogBreedRAGInit
    rw [if_neg h, loadDataset_ok_records, load_save docs]
    rfl

/-- Witness for C10 on a concrete two-document scrape result (one document
with full metadata, one with everything absent) and a valid credential. -/
theorem save_load_roundtrip_witness :
    (¬(pyStrip ((some "sk-test-123" : Option String).getD "") = "" ∨
        pyStrip ((some "sk-test-123" : Option String).getD "") = "your-key")) ∧
    ((save_documents_to_json demoStore).length = demoStore.length ∧
     (∀ r ∈ save_documents_to_json demoStore,
       r.title.isSome ∧ r.content.isSome ∧ r.url.isSome ∧ r.source.isSome ∧
       r.related_pages_count.isSome ∧ r.related_pages.isSome) ∧
     (save_documents_to_json demoStore).mapM loadDocOfRecord =
       Except.ok (demoStore.map reloadDoc) ∧
     (∀ d ∈ demoStore,
       (reloadDoc d).content = d.content ∧
       (reloadDoc d).title = (saveRecord d).title ∧
       (reloadDoc d).url = (saveRecord d).url ∧
       (reloadDoc d).source = (saveRecord d).source ∧
       (saveRecord d).content = some (reloadDoc d).content) ∧
     (∀ embedFn : String → String → List ℚ,
       dogBreedRAGInit embedFn (some "sk-test-123")
           (some (Except.ok (save_documents_to_json demoStore))) true =
         Except.ok (mkState embedFn (demoStore.map reloadDoc)))) :=
  ⟨by decide, save_load_roundtrip demoStore (some "sk-test-123") (by decide)⟩

/-- A fetched page as `scrape_page` sees it after HTML parsing: whether a
main content container was found, the first h1 text (if any h1 exists; its
text may be empty), the extracted paragraph texts in document order, and
the (absolutised href, link text) pairs of the links in the main
content. -/
structure Page where
  h1 : Option String
  hasMain : Bool
  paragraphs : List String
  links : List (String × String)
deriving DecidableEq

/-- The web as the scraper sees it: each URL either yields a parsed page
or raises (network error). -/
def Web : Type := String → Option Page

/-- Observable scraper actions: an HTTP fetch of a URL, or a politeness
sleep of a number of seconds. -/
inductive Event where
  | fetch (url : String)
  | sleep (seconds : Nat)
deriving DecidableEq

/-- Python `"sep".join(parts)` for the two separators the scraper uses. -/
def joinWith (sep : String) : List String → String
  | [] => ""
  | [t] => t
  | t :: ts => t ++ sep ++ joinWith sep ts

/-- Boolean substring test (`needle in haystack` on Python strings). -/
def strContainsB (s sub : String) : Bool :=
  decide (List.IsInfix sub.data s.data)

/-- The duplicate removal of `scrape_page`: keep the first occurrence of
each URL, preserving order. -/
def dedupByFst : List (String × String) → List String → List (String × String)
  | [], _ => []
  | (u, t) :: rest, seen =>
    if u ∈ seen then dedupByFst rest seen
    else (u, t) :: dedupByFst rest (u :: seen)

/-- The paragraph texts of a page that contribute to its body text: the
first 15 paragraphs, of which only those longer than 30 characters are
kept. -/
def pageParts (pg : Page) : List String :=
  (pg.paragraphs.take 15).filter (fun t => 30 < t.length)

/-- The body text `scrape_page` extracts for a page: the contributing
paragraphs joined with blank lines, empty when no main content container
was found. -/
def pageContent (pg : Page) : String :=
  if pg.hasMain then joinWith "\n\n" (pageParts pg) else ""

/-- The result of one `scrape_page` call: the returned
(title, content, related links) triple, plus the updated visited set and
the fetch trace. -/
structure FetchResult where
  title : Option String
  content : String
  found_urls : List (String × String)
  visited : List String
  trace : List Event
deriving DecidableEq

/-- The related-link filter of `scrape_page`: non-empty href, link text
longer than 2 characters, same site, not yet visited, no anchor, not the
breed page itself. -/
def linkKeep (breed_url : String) (visited : List String)
    (l : String × String) : Bool :=
  decide (l.1 ≠ "") && decide (2 < l.2.length) &&
    strContainsB l.1 "royalkennelclub.com" && !(decide (l.1 ∈ visited)) &&
    !(strContainsB l.1 "#") && decide (l.1 ≠ breed_url)

/-- `scrape_page` of scrapper.py: skip (without fetching) a URL already in
the visited set, otherwise mark it visited, fetch it, extract the h1 title
(default "Unknown"), the body text, and — on main breed pages with a main
content container — the filtered, deduplicated related links.  A fetch
that raises yields `(None, "", [])`. -/
def scrape_page (web : Web) (breed_url : String) (is_related_page : Bool)
    (visited : List String) (url : String) : FetchResult :=
  if url ∈ visited then
    { title := none, content := "", found_urls := [], visited := visited
      trace := [] }
  else
    let visited' := url :: visited
    match web url with
    | none =>
      { title := none, content := "", found_urls := [], visited := visited'
        trace := [Event.fetch url] }
    | some pg =>
      let found_urls :=
        if pg.hasMain && !is_related_page then
          dedupByFst (pg.links.filter (linkKeep breed_url visited')) []
        else []
      { title := some (pg.h1.getD "Unknown")
        content := pageContent pg
        found_urls := found_urls
        visited := visited'
        trace := [Event.fetch url] }

/-- The accumulated result of the related-page loop: the appended
"--- title ---" content blocks, the related-page (title, url) records, the
updated visited set, and the trace. -/
structure RelatedResult where
  contents : List String
  pages : List (String × String)
  visited : List String
  trace : List Event
deriving DecidableEq

/-- The related-page loop of `scrape_dog_breeds_rkc`: a 1-second sleep
before every fetch except the first, scrape each related URL as a related
page, and keep those with a non-empty title and more than 30 characters of
content. -/
def scrapeRelated (web : Web) (breed_url : String) :
    List (String × String) → List String → Bool → RelatedResult
  | [], visited, _ =>
    { contents := [], pages := [], visited := visited, trace := [] }
  | (related_url, _) :: rest, visited, isFirst =>
    let sleepTrace : List Event :=
      if isFirst then [] else [Event.sleep 1]
    let fr := scrape_page web breed_url true visited related_url
    let tail := scrapeRelated web breed_url rest fr.visited false
    match fr.title with
    | some t =>
      if t ≠ "" ∧ 30 < fr.content.length then
        { contents :=
            ("\n\n--- " ++ t ++ " ---\n" ++ fr.content) :: tail.contents
          pages := (t, related_url) :: tail.pages
          visited := tail.visited
          trace := sleepTrace ++ fr.trace ++ tail.trace }
      else
        { contents := tail.contents, pages := tail.pages
          visited := tail.visited
          trace := sleepTrace ++ fr.trace ++ tail.trace }
    | none =>
      { contents := tail.contents, pages := tail.pages
        visited := tail.visited
        trace := sleepTrace ++ fr.trace ++ tail.trace }

/-- The result of the main breed loop: the scraped documents, the final
visited set, and the trace. -/
structure ScrapeResult where
  documents : List Document
  visited : List String
  trace : List Event
deriving DecidableEq

/-- The main loop of `scrape_dog_breeds_rkc`: a 2-second sleep before
every breed-page fetch except the first; a breed page with a truthy title
and more than 100 characters of content yields a Document combining its
content with up to 100 related pages' content blocks; other pages are
skipped. -/
def scrapeBreeds (web : Web) :
    List (String × String) → List String → Bool → ScrapeResult
  | [], visited, _ =>
    { documents := [], visited := visited, trace := [] }
  | (breed_url, _) :: rest, visited, isFirst =>
    let sleepTrace : List Event :=
      if isFirst then [] else [Event.sleep 2]
    let fr := scrape_page web breed_url false visited breed_url
    match fr.title with
    | some t =>
      if t ≠ "" ∧ 100 < fr.content.length then
        let rel := scrapeRelated web breed_url (fr.found_urls.take 100)
          fr.visited true
        let doc : Document :=
          { content := fr.content ++ joinWith "" rel.contents
            title := some t
            url := some breed_url
            source := some "Royal Kennel Club"
            related_pages_count := some rel.pages.length
            related_pages := some rel.pages
            embedding := none }
        let tail := scrapeBreeds web rest rel.visited false
        { documents := doc :: tail.documents
          visited := tail.visited
          trace := sleepTrace ++ fr.trace ++ rel.trace ++ tail.trace }
      else
        let tail := scrapeBreeds web rest fr.visited false
        { documents := tail.documents, visited := tail.visited
          trace := sleepTrace ++ fr.trace ++ tail.trace }
    | none =>
      let tail := scrapeBreeds web rest fr.visited false
      { documents := tail.documents, visited := tail.visited
        trace := sleepTrace ++ fr.trace ++ tail.trace }

/-- `scrape_dog_breeds_rkc`, given the unique breed links extracted from
the listing page: scrape at most 300 breed pages starting from an empty
visited set. -/
def scrape_dog_breeds_rkc (web : Web)
    (unique_links : List (String × String)) : ScrapeResult :=
  scrapeBreeds web (unique_links.take 300) [] true

/-- The URLs of the fetch events of a trace, in order. -/
def fetchedUrls (tr : List Event) : List String :=
  tr.filterMap (fun e =>
    match e with
    | Event.fetch u => some u
    | Event.sleep _ => none)

/-- Whether a trace contains two fetches with nothing between them. -/
def hasAdjacentFetches : List Event → Bool
  | Event.fetch _ :: Event.fetch _ :: _ => true
  | _ :: rest => hasAdjacentFetches rest
  | [] => false

/-- Bookkeeping invariant of one scraping step: its fetched URLs are
pairwise distinct, none was visited before the step, all are visited after
it, and the visited set only grows. -/
structure ScrapeInv (vin vout : List String) (tr : List Event) : Prop where
  nodup : (fetchedUrls tr).Nodup
  fresh : ∀ u ∈ fetchedUrls tr, u ∉ vin
  sub : ∀ u ∈ fetchedUrls tr, u ∈ vout
  mono : ∀ u ∈ vin, u ∈ vout

theorem fetchedUrls_append (a b : List Event) :
    fetchedUrls (a ++ b) = fetchedUrls a ++ fetchedUrls b :=
  List.filterMap_append a b _

theorem ScrapeInv.comp {v1 v2 v3 : List String} {tr1 tr2 : List Event}
    (h1 : ScrapeInv v1 v2 tr1) (h2 : ScrapeInv v2 v3 tr2) :
    ScrapeInv v1 v3 (tr1 ++ tr2) := by
  refine ⟨?_, ?_, ?_, fun u hu => h2.mono u (h1.mono u hu)⟩
  · rw [fetchedUrls_append]
    refine List.Nodup.append h1.nodup h2.nodup ?_
    intro u hu1 hu2
    exact h2.fresh u hu2 (h1.sub u hu1)
  · intro u hu
    rw [fetchedUrls_append, List.mem_append] at hu
    rcases hu with hu | hu
    · exact h1.fresh u hu
    · intro hv
      exact h2.fresh u hu (h1.mono u hv)
  · intro u hu
    rw [fetchedUrls_append, List.mem_append] at hu
    rcases hu with hu | hu
    · exact h2.mono u (h1.sub u hu)
    · exact h2.sub u hu

theorem ScrapeInv.ofNoFetch {v : List String} {tr : List Event}
    (h : fetchedUrls tr = []) : ScrapeInv v v tr :=
  ⟨by simp [h], by simp [h], by simp [h], fun _ hu => hu⟩

theorem fetchedUrls_sleepTrace (b : Bool) (n : Nat) :
    fetchedUrls (if b then [] else [Event.sleep n]) = [] := by
  cases b <;> simp [fetchedUrls]

theorem scrape_page_inv (web : Web) (burl : String) (rel : Bool)
    (visited : List String) (url : String) :
    ScrapeInv visited (scrape_page web burl rel visited url).visited
      (scrape_page web burl rel visited url).trace := by
  unfold scrape_page
  by_cases hv : url ∈ visited
  · simp only [hv, if_true]
    exact ScrapeInv.ofNoFetch rfl
  · simp only [hv, if_false]
    cases hw : web url with
    | none =>
      refine ⟨by simp [fetchedUrls], ?_, ?_, ?_⟩
      · intro u hu
        simp [fetchedUrls] at hu
        subst hu
        exact hv
      · intro u hu
        simp [fetchedUrls] at hu
        subst hu
        exact List.mem_cons_self _ _
      · intro u hu
        exact List.mem_cons_of_mem _ hu
    | some pg =>
      refine ⟨by simp [fetchedUrls], ?_, ?_, ?_⟩
      · intro u hu
        simp [fetchedUrls] at hu
        subst hu
        exact hv
      · intro u hu
        simp [fetchedUrls] at hu
        subst hu
        exact List.mem_cons_self _ _
      · intro u hu
        exact List.mem_cons_of_mem _ hu

theorem scrapeRelated_inv (web : Web) (burl : String) :
    ∀ (lst : List (String × String)) (visited : List String) (first : Bool),
    ScrapeInv visited (scrapeRelated web burl lst visited first).visited
      (scrapeRelated web burl lst visited first).trace := by
  intro lst
  induction lst with
  | nil =>
    intro visited first
    exact ScrapeInv.ofNoFetch rfl
  | cons p rest ih =>
    intro visited first
    obtain ⟨ru, rt⟩ := p
    have hpage := scrape_page_inv web burl true visited ru
    have htail := ih (scrape_page web burl true visited ru).visited false
    have hcomp := (ScrapeInv.ofNoFetch (v := visited)
        (fetchedUrls_sleepTrace first 1)).comp (hpage.comp htail)
    cases htitle : (scrape_page web burl true visited ru).title with
    | none =>
      simpa [scrapeRelated, htitle, List.append_assoc] using hcomp
    | some t =>
      by_cases hc : t ≠ "" ∧
          30 < (scrape_page web burl true visited ru).content.length
      · simpa [scrapeRelated, htitle, hc, List.append_assoc] using hcomp
      · simpa [scrapeRelated, htitle, hc, List.append_assoc] using hcomp

theorem scrapeBreeds_inv (web : Web) :
    ∀ (lst : List (String × String)) (visited : List String) (first : Bool),
    ScrapeInv visited (scrapeBreeds web lst visited first).visited
      (scrapeBreeds web lst visited first).trace := by
  intro lst
  induction lst with
  | nil =>
    intro visited first
    exact ScrapeInv.ofNoFetch rfl
  | cons p rest ih =>
    intro visited first
    obtain ⟨bu, bt⟩ := p
    have hpage := scrape_page_inv web bu false visited bu
    cases htitle : (scrape_page web bu false visited bu).title with
    | none =>
      have htail := ih (scrape_page web bu false visited bu).visited false
      have hcomp := (ScrapeInv.ofNoFetch (v := visited)
          (fetchedUrls_sleepTrace first 2)).comp (hpage.comp htail)
      simpa [scrapeBreeds, htitle, List.append_assoc] using hcomp
    | some t =>
      by_cases hc : t ≠ "" ∧
          100 < (scrape_page web bu false visited bu).content.length
      · have hrel := scrapeRelated_inv web bu
          ((scrape_page web bu false visited bu).found_urls.take 100)
          (scrape_page web bu false visited bu).visited true
        have htail := ih (scrapeRelated web bu
          ((scrape_page web bu false visited bu).found_urls.take 100)
          (scrape_page web bu false visited bu).visited true).visited false
        have hcomp := (ScrapeInv.ofNoFetch (v := visited)
            (fetchedUrls_sleepTrace first 2)).comp
          (hpage.comp (hrel.comp htail))
        simpa [scrapeBreeds, htitle, hc, List.append_assoc] using hcomp
      · have htail := ih (scrape_page web bu false visited bu).visited false
        have hcomp := (ScrapeInv.ofNoFetch (v := visited)
            (fetchedUrls_sleepTrace first 2)).comp (hpage.comp htail)
        simpa [scrapeBreeds, htitle, hc, List.append_assoc] using hcomp

theorem dedupByFst_nodup :
    ∀ (l : List (String × String)) (seen : List String),
    ((dedupByFst l seen).map Prod.fst).Nodup ∧
    ∀ u ∈ (dedupByFst l seen).map Prod.fst, u ∉ seen := by
  intro l
  induction l with
  | nil =>
    intro seen
    exact ⟨List.nodup_nil, by simp [dedupByFst]⟩
  | cons p rest ih =>
    intro seen
    obtain ⟨u, t⟩ := p
    by_cases hu : u ∈ seen
    · simpa [dedupByFst, hu] using ih seen
    · rcases ih (u :: seen) with ⟨hnd, hns⟩
      constructor
      · simp only [dedupByFst, hu, if_false, List.map_cons]
        refine List.nodup_cons.mpr ⟨?_, hnd⟩
        intro hmem
        exact hns u hmem (List.mem_cons_self _ _)
      · intro v hv
        simp only [dedupByFst, hu, if_false, List.map_cons] at hv
        rcases List.mem_cons.mp hv with hv | hv
        · subst hv
          exact hu
        · exact fun hvseen => hns v hv (List.mem_cons_of_mem _ hvseen)

theorem dedupByFst_subset :
    ∀ (l : List (String × String)) (seen : List String),
    ∀ x ∈ dedupByFst l seen, x ∈ l := by
  intro l
  induction l with
  | nil =>
    intro seen x hx
    cases hx
  | cons p rest ih =>
    intro seen x hx
    obtain ⟨u, t⟩ := p
    by_cases hu : u ∈ seen
    · simp only [dedupByFst, hu, if_true] at hx
      exact List.mem_cons_of_mem _ (ih seen x hx)
    · simp only [dedupByFst, hu, if_false] at hx
      rcases List.mem_cons.mp hx with hx | hx
      · exact hx ▸ List.mem_cons_self _ _
      · exact List.mem_cons_of_mem _ (ih (u :: seen) x hx)

theorem scrape_page_found_spec (web : Web) (burl : String) (rel : Bool)
    (visited : List String) (url : String) :
    (∀ x ∈ (scrape_page web burl rel visited url).found_urls,
      x.1 ∉ (scrape_page web burl rel visited url).visited) ∧
    ((scrape_page web burl rel visited url).found_urls.map Prod.fst).Nodup := by
  unfold scrape_page
  by_cases hv : url ∈ visited
  · simp [hv]
  · simp only [hv, if_false]
    cases hw : web url with
    | none => simp
    | some pg =>
      by_cases hm : (pg.hasMain && !rel) = true
      · simp only [hm, if_true]
        constructor
        · intro x hx
          have hx2 := dedupByFst_subset _ [] x hx
          have hkeep := List.of_mem_filter hx2
          unfold linkKeep at hkeep
          simp only [Bool.and_eq_true, Bool.not_eq_true', decide_eq_true_eq,
            decide_eq_false_iff_not] at hkeep
          obtain ⟨⟨⟨⟨⟨h1, h2⟩, h3⟩, h4⟩, h5⟩, h6⟩ := hkeep
          exact h4
        · exact (dedupByFst_nodup _ []).1
      · simp [hm]

/-- C9: `scrape_page` never refetches: a URL already in the visited set is
answered `(None, "", [])` with no fetch and no change to the visited set;
an unvisited URL is added to the visited set in the same step as its (at
most one) fetch; discovered related links are filtered against the updated
visited set and deduplicated; consequently a whole scrape run fetches
pairwise-distinct URLs. -/
theorem scrape_page_no_refetch (web : Web) (burl : String) (rel : Bool)
    (visited : List String) (url : String) :
    (url ∈ visited →
      scrape_page web burl rel visited url =
        { title := none, content := "", found_urls := [],
          visited := visited, trace := [] }) ∧
    (url ∉ visited →
      (scrape_page web burl rel visited url).visited = url :: visited ∧
      fetchedUrls (scrape_page web burl rel visited url).trace = [url]) ∧
    (∀ x ∈ (scrape_page web burl rel visited url).found_urls,
      x.1 ∉ (scrape_page web burl rel visited url).visited) ∧
    ((scrape_page web burl rel visited url).found_urls.map Prod.fst).Nodup ∧
    (∀ L : List (String × String),
      (fetchedUrls (scrape_dog_breeds_rkc web L).trace).Nodup) := by
  refine ⟨?_, ?_, (scrape_page_found_spec web burl rel visited url).1,
    (scrape_page_found_spec web burl rel visited url).2, ?_⟩
  · intro hv
    unfold scrape_page
    simp [hv]
  · intro hv
    unfold scrape_page
    cases hw : web url with
    | none => simp [hv, hw, fetchedUrls]
    | some pg => simp [hv, hw, fetchedUrls]
  · intro L
    exact (scrapeBreeds_inv web (L.take 300) [] true).nodup

/-- Concrete example: a breed page URL and a related care page URL. -/
def cexBreedUrl : String := "https://www.royalkennelclub.com/breed/beagle"

def cexCareUrl : String :=
  "https://www.royalkennelclub.com/breed/beagle/care"

/-- A paragraph longer than 100 characters. -/
def cexLongPara : String :=
  "The Beagle is a small scent hound, similar in appearance to the much larger foxhound, bred for hunting hare and known for its even temper."

/-- The breed page: a title, one long paragraph, one related link. -/
def cexMainPage : Page :=
  { h1 := some "Beagle"
    hasMain := true
    paragraphs := [cexLongPara]
    links := [(cexCareUrl, "Beagle care guide")] }

/-- The related care page: a title and one long paragraph. -/
def cexCarePage : Page :=
  { h1 := some "Beagle care"
    hasMain := true
    paragraphs := [cexLongPara]
    links := [] }

/-- A two-page web for concrete runs. -/
def cexWeb : Web := fun u =>
  if u = cexBreedUrl then some cexMainPage
  else if u = cexCareUrl then some cexCarePage
  else none

/-- A one-breed listing. -/
def cexListing : List (String × String) := [(cexBreedUrl, "Beagle")]

/-- Witness for C9 at concrete inputs: a visited URL is skipped verbatim,
an unvisited URL is fetched once and marked visited, and the concrete
two-page run fetches pairwise-distinct URLs. -/
theorem scrape_page_no_refetch_witness :
    (cexBreedUrl ∈ [cexBreedUrl] ∧
      scrape_page cexWeb cexBreedUrl false [cexBreedUrl] cexBreedUrl =
        { title := none, content := "", found_urls := [],
          visited := [cexBreedUrl], trace := [] }) ∧
    (cexCareUrl ∉ [cexBreedUrl] ∧
      (scrape_page cexWeb cexBreedUrl false [cexBreedUrl] cexCareUrl).visited
          = cexCareUrl :: [cexBreedUrl] ∧
      fetchedUrls
          (scrape_page cexWeb cexBreedUrl false [cexBreedUrl] cexCareUrl).trace
        = [cexCareUrl]) ∧
    (fetchedUrls (scrape_dog_breeds_rkc cexWeb cexListing).trace).Nodup :=
  ⟨⟨by decide,
    (scrape_page_no_refetch cexWeb cexBreedUrl false [cexBreedUrl]
      cexBreedUrl).1 (by decide)⟩,
   ⟨by decide,
    (scrape_page_no_refetch cexWeb cexBreedUrl false [cexBreedUrl]
      cexCareUrl).2.1 (by decide)⟩,
   (scrape_page_no_refetch cexWeb cexBreedUrl false [] cexBreedUrl).2.2.2.2
     cexListing⟩

set_option maxRecDepth 100000 in
/-- Counterexample to C7 as stated: in the concrete run, the breed-page
fetch and the first related-page fetch are issued back-to-back, with no
politeness delay between them. -/
theorem scrape_adjacent_fetches :
    hasAdjacentFetches (scrape_dog_breeds_rkc cexWeb cexListing).trace =
      true ∧
    (scrape_dog_breeds_rkc cexWeb cexListing).trace =
      [Event.fetch cexBreedUrl, Event.fetch cexCareUrl] := by
  constructor <;> rfl

theorem hasAdj_sleep_cons (n : Nat) (l : List Event) :
    hasAdjacentFetches (Event.sleep n :: l) = hasAdjacentFetches l := by
  cases l with
  | nil => rfl
  | cons e rest => cases e <;> rfl

theorem hasAdj_fetch_sleep (u : String) (n : Nat) (l : List Event) :
    hasAdjacentFetches (Event.fetch u :: Event.sleep n :: l) =
      hasAdjacentFetches (Event.sleep n :: l) := rfl

theorem scrape_page_trace_cases (web : Web) (burl : String) (rel : Bool)
    (visited : List String) (url : String) :
    (scrape_page web burl rel visited url).trace = [] ∨
    (scrape_page web burl rel visited url).trace = [Event.fetch url] := by
  unfold scrape_page
  by_cases hv : url ∈ visited
  · simp [hv]
  · cases hw : web url <;> simp [hv, hw]

theorem scrape_page_found_nil (web : Web)
    (hnl : ∀ u pg, web u = some pg → pg.links = [])
    (burl : String) (rel : Bool) (visited : List String) (url : String) :
    (scrape_page web burl rel visited url).found_urls = [] := by
  unfold scrape_page
  by_cases hv : url ∈ visited
  · simp [hv]
  · cases hw : web url with
    | none => simp [hv, hw]
    | some pg =>
      have hl := hnl url pg hw
      by_cases hm : (pg.hasMain && !rel) = true <;>
        simp [hv, hw, hm, hl, dedupByFst]

theorem scrapeBreeds_noAdj (web : Web)
    (hnl : ∀ u pg, web u = some pg → pg.links = []) :
    ∀ (L : List (String × String)) (visited : List String) (first : Bool),
    hasAdjacentFetches (scrapeBreeds web L visited first).trace = false ∧
    (first = false → (scrapeBreeds web L visited first).trace = [] ∨
      ∃ tl, (scrapeBreeds web L visited first).trace =
        Event.sleep 2 :: tl) := by
  intro L
  induction L with
  | nil =>
    intro visited first
    exact ⟨rfl, fun _ => Or.inl rfl⟩
  | cons p rest ih =>
    intro visited first
    obtain ⟨u, nm⟩ := p
    have hfound := scrape_page_found_nil web hnl u false visited u
    have htr :
        (scrapeBreeds web ((u, nm) :: rest) visited first).trace =
          (if first then ([] : List Event) else [Event.sleep 2]) ++
            (scrape_page web u false visited u).trace ++
            (scrapeBreeds web rest
              (scrape_page web u false visited u).visited false).trace := by
      cases htitle : (scrape_page web u false visited u).title with
      | none => simp [scrapeBreeds, htitle, List.append_assoc]
      | some t =>
        by_cases hc : t ≠ "" ∧
            100 < (scrape_page web u false visited u).content.length
        · simp [scrapeBreeds, htitle, hc, hfound, scrapeRelated,
            List.append_assoc]
        · simp [scrapeBreeds, htitle, hc, List.append_assoc]
    rw [htr]
    rcases ih (scrape_page web u false visited u).visited false with
      ⟨ihAdj, ihHead⟩
    rcases scrape_page_trace_cases web u false visited u with hft | hft <;>
      rw [hft] <;>
      rcases ihHead rfl with htl | ⟨tl, htl⟩ <;>
      rw [htl] <;>
      cases first <;>
      simp_all [hasAdj_sleep_cons, hasAdj_fetch_sleep, hasAdjacentFetches]

/-- C7 amended: a 2-second delay precedes every breed-page fetch after the
first, and a 1-second delay every related-page fetch after the first of
its breed; so in a run that discovers no related links, no two fetches are
issued back-to-back.  The amendment is forced by the counterexample: the
first related-page fetch of a breed follows the breed-page fetch with no
intervening delay. -/
theorem scrape_no_adjacent_without_links (web : Web)
    (hnl : ∀ u pg, web u = some pg → pg.links = [])
    (L : List (String × String)) :
    hasAdjacentFetches (scrape_dog_breeds_rkc web L).trace = false :=
  (scrapeBreeds_noAdj web hnl (L.take 300) [] true).1

/-- The breed page without related links. -/
def cexNoLinkMain : Page :=
  { h1 := some "Beagle"
    hasMain := true
    paragraphs := [cexLongPara]
    links := [] }

/-- A two-page web whose pages have no links. -/
def cexNoLinkWeb : Web := fun u =>
  if u = cexBreedUrl then some cexNoLinkMain
  else if u = cexCareUrl then some cexCarePage
  else none

/-- A two-breed listing. -/
def cexListing2 : List (String × String) :=
  [(cexBreedUrl, "Beagle"), (cexCareUrl, "Beagle care")]

theorem cexNoLinkWeb_noLinks :
    ∀ u pg, cexNoLinkWeb u = some pg → pg.links = [] := by
  intro u pg h
  unfold cexNoLinkWeb at h
  split at h
  · cases h
    rfl
  · split at h
    · cases h
      rfl
    · cases h

/-- Witness for C7 (amended) on a concrete two-breed, no-links run. -/
theorem scrape_no_adjacent_without_links_witness :
    (∀ u pg, cexNoLinkWeb u = some pg → pg.links = []) ∧
    hasAdjacentFetches
      (scrape_dog_breeds_rkc cexNoLinkWeb cexListing2).trace = false :=
  ⟨cexNoLinkWeb_noLinks,
   scrape_no_adjacent_without_links cexNoLinkWeb cexNoLinkWeb_noLinks
     cexListing2⟩

/-- Whether the main-loop document filter accepts the page at `u`: the
page fetches, has a truthy title, and its extracted body text is longer
than 100 characters. -/
def qualifiesB (web : Web) (u : String) : Bool :=
  match web u with
  | none => false
  | some pg =>
    decide (pg.h1.getD "Unknown" ≠ "") &&
      decide (100 < (pageContent pg).length)

theorem scrape_page_hit (web : Web) (burl : String) (rel : Bool)
    (visited : List String) (url : String) (pg : Page)
    (hv : url ∉ visited) (hw : web url = some pg) :
    (scrape_page web burl rel visited url).title =
      some (pg.h1.getD "Unknown") ∧
    (scrape_page web burl rel visited url).content = pageContent pg ∧
    (scrape_page web burl rel visited url).visited = url :: visited := by
  unfold scrape_page
  simp [hv, hw]

theorem scrape_page_miss (web : Web) (burl : String) (rel : Bool)
    (visited : List String) (url : String)
    (hv : url ∉ visited) (hw : web url = none) :
    (scrape_page web burl rel visited url).title = none ∧
    (scrape_page web burl rel visited url).visited = url :: visited := by
  unfold scrape_page
  simp [hv, hw]

theorem scrape_page_visited_cases (web : Web) (burl : String) (rel : Bool)
    (visited : List String) (url : String) :
    (scrape_page web burl rel visited url).visited = visited ∨
    (scrape_page web burl rel visited url).visited = url :: visited := by
  unfold scrape_page
  by_cases hv : url ∈ visited
  · simp [hv]
  · cases hw : web url <;> simp [hv, hw]

theorem scrape_page_found_sub (web : Web) (burl : String) (rel : Bool)
    (visited : List String) (url : String) (pg : Page)
    (hw : web url = some pg) :
    ∀ x ∈ (scrape_page web burl rel visited url).found_urls,
      x ∈ pg.links := by
  unfold scrape_page
  by_cases hv : url ∈ visited
  · simp [hv]
  · simp only [hv, if_false, hw]
    by_cases hm : (pg.hasMain && !rel) = true
    · simp only [hm, if_true]
      intro x hx
      exact List.mem_of_mem_filter (dedupByFst_subset _ [] x hx)
    · simp [hm]

theorem scrapeRelated_visited_sub (web : Web) (burl : String) :
    ∀ (lst : List (String × String)) (visited : List String) (first : Bool),
    ∀ x ∈ (scrapeRelated web burl lst visited first).visited,
      x ∈ visited ∨ x ∈ lst.map Prod.fst := by
  intro lst
  induction lst with
  | nil =>
    intro visited first x hx
    exact Or.inl hx
  | cons p rest ih =>
    intro visited first x hx
    obtain ⟨ru, rt⟩ := p
    have hvtail : (scrapeRelated web burl ((ru, rt) :: rest) visited
        first).visited = (scrapeRelated web burl rest
          (scrape_page web burl true visited ru).visited false).visited := by
      cases htitle : (scrape_page web burl true visited ru).title with
      | none => simp [scrapeRelated, htitle]
      | some t =>
        by_cases hc : t ≠ "" ∧
            30 < (scrape_page web burl true visited ru).content.length
        · simp [scrapeRelated, htitle, hc]
        · simp [scrapeRelated, htitle, hc]
    rw [hvtail] at hx
    rcases ih (scrape_page web burl true visited ru).visited false x hx with
      hx2 | hx2
    · rcases scrape_page_visited_cases web burl true visited ru with he | he
      · rw [he] at hx2
        exact Or.inl hx2
      · rw [he] at hx2
        rcases List.mem_cons.mp hx2 with hx3 | hx3
        · exact Or.inr (by simp [hx3])
        · exact Or.inl hx3
    · exact Or.inr (List.mem_cons_of_mem _ hx2)

theorem scrapeBreeds_clean (web : Web) :
    ∀ (L : List (String × String)) (visited : List String) (first : Bool),
    (L.map Prod.fst).Nodup →
    (∀ p ∈ L, p.1 ∉ visited) →
    (∀ p ∈ L, ∀ v pg, web v = some pg → p.1 ∉ pg.links.map Prod.fst) →
    (scrapeBreeds web L visited first).documents.map (fun d => d.url) =
      (L.filter (fun p => qualifiesB web p.1)).map (fun p => some p.1) := by
  intro L
  induction L with
  | nil =>
    intro visited first _ _ _
    rfl
  | cons p rest ih =>
    intro visited first hnd hvis hdisj
    obtain ⟨u, nm⟩ := p
    have hu : u ∉ visited := hvis (u, nm) (List.mem_cons_self _ _)
    have hndr : (rest.map Prod.fst).Nodup := (List.nodup_cons.mp hnd).2
    have hune : ∀ q ∈ rest, q.1 ≠ u := by
      intro q hq hqu
      have hnd2 : (u :: rest.map Prod.fst).Nodup := by
        simpa using hnd
      have hmem : q.1 ∈ rest.map Prod.fst :=
        List.mem_map_of_mem Prod.fst hq
      rw [hqu] at hmem
      exact (List.nodup_cons.mp hnd2).1 hmem
    have hvisr : ∀ q ∈ rest, q.1 ∉ u :: visited := by
      intro q hq
      rw [List.mem_cons]
      rintro (h | h)
      · exact hune q hq h
      · exact hvis q (List.mem_cons_of_mem _ hq) h
    have hdisjr : ∀ q ∈ rest, ∀ v pg, web v = some pg →
        q.1 ∉ pg.links.map Prod.fst := by
      intro q hq
      exact hdisj q (List.mem_cons_of_mem _ hq)
    cases hw : web u with
    | none =>
      have hmiss := scrape_page_miss web u false visited u hu hw
      have hq : qualifiesB web u = false := by
        simp [qualifiesB, hw]
      have := ih (scrape_page web u false visited u).visited false hndr
        (by rw [hmiss.2]; exact hvisr) hdisjr
      simp only [scrapeBreeds, hmiss.1]
      simpa [hq] using this
    | some pg =>
      have hhit := scrape_page_hit web u false visited u pg hu hw
      by_cases hc : pg.h1.getD "Unknown" ≠ "" ∧
          100 < (pageContent pg).length
      · have hq : qualifiesB web u = true := by
          simp [qualifiesB, hw, hc.1, hc.2]
        have hrelvis : ∀ q ∈ rest, q.1 ∉ (scrapeRelated web u
            ((scrape_page web u false visited u).found_urls.take 100)
            (scrape_page web u false visited u).visited true).visited := by
          intro q hq2 hmem
          rcases scrapeRelated_visited_sub web u _ _ _ q.1 hmem with h | h
          · rw [hhit.2.2] at h
            exact hvisr q hq2 h
          · rcases List.mem_map.mp h with ⟨x, hx, hxq⟩
            have hx2 := scrape_page_found_sub web u false visited u pg hw x
              (List.take_subset 100 _ hx)
            exact hdisjr q hq2 u pg hw
              (hxq ▸ List.mem_map_of_mem Prod.fst hx2)
        have := ih (scrapeRelated web u
            ((scrape_page web u false visited u).found_urls.take 100)
            (scrape_page web u false visited u).visited true).visited false
          hndr hrelvis hdisjr
        have hcc : pg.h1.getD "Unknown" ≠ "" ∧
            100 < (scrape_page web u false visited u).content.length := by
          rw [hhit.2.1]
          exact hc
        simp only [scrapeBreeds, hhit.1, hcc, if_true, and_true, ne_eq,
          not_false_iff, List.map_cons]
        simp only [List.filter_cons, hq, if_true, List.map_cons]
        exact congrArg (List.cons (some u)) this
      · have hq : qualifiesB web u = false := by
          rcases not_and_or.mp hc with h | h
          · simp only [ne_eq, not_not] at h
            simp [qualifiesB, hw, h]
          · simp only [not_lt] at h
            simp [qualifiesB, hw, Nat.not_lt.mpr h]
        have hcc : ¬(pg.h1.getD "Unknown" ≠ "" ∧
            100 < (scrape_page web u false visited u).content.length) := by
          rw [hhit.2.1]
          exact hc
        have := ih (scrape_page web u false visited u).visited false hndr
          (by rw [hhit.2.2]; exact hvisr) hdisjr
        simp only [scrapeBreeds, hhit.1, hcc, if_false]
        simpa [hq] using this

/-- C6 amended: in a scrape run over at most 300 distinct breed links
none of which occurs among any page's related links (so no listed breed is
first consumed as another breed's related page), the produced documents
are exactly those of the qualifying pages in order; in particular a page
whose extracted body text is at or below the 100-character threshold
produces no Document for its URL, while a Document is produced for every
qualifying page of the same run; and within a page only paragraphs longer
than 30 characters, among the first 15, contribute to the body text. -/
theorem scrape_threshold (web : Web) (L : List (String × String))
    (hnd : (L.map Prod.fst).Nodup) (hlen : L.length ≤ 300)
    (hdisj : ∀ p ∈ L, ∀ v pg, web v = some pg →
      p.1 ∉ pg.links.map Prod.fst) :
    ((scrape_dog_breeds_rkc web L).documents.map (fun d => d.url) =
      (L.filter (fun p => qualifiesB web p.1)).map (fun p => some p.1)) ∧
    (∀ p ∈ L, ∀ pg, web p.1 = some pg → (pageContent pg).length ≤ 100 →
      some p.1 ∉
        (scrape_dog_breeds_rkc web L).documents.map (fun d => d.url)) ∧
    (∀ p ∈ L, qualifiesB web p.1 = true →
      some p.1 ∈
        (scrape_dog_breeds_rkc web L).documents.map (fun d => d.url)) ∧
    (∀ pg : Page, ∀ t ∈ pageParts pg,
      t ∈ pg.paragraphs.take 15 ∧ 30 < t.length) := by
  have htake : L.take 300 = L := List.take_of_length_le hlen
  have hmain :
      (scrape_dog_breeds_rkc web L).documents.map (fun d => d.url) =
        (L.filter (fun p => qualifiesB web p.1)).map (fun p => some p.1) := by
    unfold scrape_dog_breeds_rkc
    rw [htake]
    exact scrapeBreeds_clean web L [] true hnd (by simp) hdisj
  refine ⟨hmain, ?_, ?_, ?_⟩
  · intro p hp pg hw hle
    rw [hmain]
    intro hmem
    rcases List.mem_map.mp hmem with ⟨q, hq, hqe⟩
    have hqu : q.1 = p.1 := Option.some.inj hqe
    have hqq := (List.mem_filter.mp hq).2
    rw [hqu] at hqq
    unfold qualifiesB at hqq
    rw [hw] at hqq
    simp only [Bool.and_eq_true, decide_eq_true_eq] at hqq
    exact absurd hqq.2 (Nat.not_lt.mpr hle)
  · intro p hp hq
    rw [hmain]
    refine List.mem_map.mpr ⟨p, ?_, rfl⟩
    exact List.mem_filter.mpr ⟨hp, by simpa using hq⟩
  · intro pg t ht
    have hm := List.mem_filter.mp ht
    exact ⟨hm.1, by simpa using hm.2⟩

/-- A second listed breed URL, linked from the Beagle page. -/
def colHarrierUrl : String :=
  "https://www.royalkennelclub.com/breed/harrier"

/-- A qualifying Harrier breed page (long paragraph, truthy title). -/
def colHarrierPage : Page :=
  { h1 := some "Harrier"
    hasMain := true
    paragraphs := [cexLongPara]
    links := [] }

/-- A qualifying Beagle breed page whose main content links to the listed
Harrier breed page. -/
def colBeaglePage : Page :=
  { h1 := some "Beagle"
    hasMain := true
    paragraphs := [cexLongPara]
    links := [(colHarrierUrl, "Harrier breed")] }

/-- A web where one listed breed page links to another listed breed
page. -/
def colWeb : Web := fun u =>
  if u = cexBreedUrl then some colBeaglePage
  else if u = colHarrierUrl then some colHarrierPage
  else none

/-- The listing holding both breed pages. -/
def colListing : List (String × String) :=
  [(cexBreedUrl, "Beagle"), (colHarrierUrl, "Harrier")]

set_option maxRecDepth 1000000 in
/-- Counterexample to C6 as stated: in this run every page is above the
threshold, yet the qualifying listed Harrier page produces no Document —
the Beagle page links to it, so it is fetched first as a related page,
marked visited, and the main loop then skips it (`scrape_page` answers
`(None, "", [])` for visited URLs). -/
theorem scrape_qualifying_page_skipped :
    qualifiesB colWeb colHarrierUrl = true ∧
    (colHarrierUrl, "Harrier") ∈ colListing ∧
    (scrape_dog_breeds_rkc colWeb colListing).documents.map
        (fun d => d.url) = [some cexBreedUrl] ∧
    some colHarrierUrl ∉
      (scrape_dog_breeds_rkc colWeb colListing).documents.map
        (fun d => d.url) := by
  refine ⟨by decide, by decide, by rfl, by decide⟩

/-- A below-threshold breed page URL. -/
def cexShortUrl : String :=
  "https://www.royalkennelclub.com/breed/chihuahua"

/-- A page whose single paragraph passes the 30-character paragraph filter
but whose body text stays at or below the 100-character page threshold. -/
def cexShortPage : Page :=
  { h1 := some "Chihuahua"
    hasMain := true
    paragraphs := ["A tiny companion dog with a very big personality."]
    links := [] }

/-- A two-page web: one qualifying breed page, one below-threshold page,
no related links anywhere. -/
def cexWeb3 : Web := fun u =>
  if u = cexBreedUrl then some cexNoLinkMain
  else if u = cexShortUrl then some cexShortPage
  else none

/-- The listing with both pages. -/
def cexListing3 : List (String × String) :=
  [(cexBreedUrl, "Beagle"), (cexShortUrl, "Chihuahua")]

theorem cexWeb3_noLinks : ∀ u pg, cexWeb3 u = some pg → pg.links = [] := by
  intro u pg h
  unfold cexWeb3 at h
  split at h
  · cases h
    rfl
  · split at h
    · cases h
      rfl
    · cases h

theorem cexWeb3_disj : ∀ p ∈ cexListing3, ∀ v pg, cexWeb3 v = some pg →
    p.1 ∉ pg.links.map Prod.fst := by
  intro p _ v pg h
  rw [cexWeb3_noLinks v pg h]
  simp

set_option maxRecDepth 100000 in
/-- Witness for C6 on the concrete two-page run: the qualifying Beagle
page yields a Document, the below-threshold Chihuahua page yields none. -/
theorem scrape_threshold_witness :
    ((cexListing3.map Prod.fst).Nodup ∧ cexListing3.length ≤ 300 ∧
      (∀ p ∈ cexListing3, ∀ v pg, cexWeb3 v = some pg →
        p.1 ∉ pg.links.map Prod.fst)) ∧
    ((cexShortUrl, "Chihuahua") ∈ cexListing3 ∧
      cexWeb3 cexShortUrl = some cexShortPage ∧
      (pageContent cexShortPage).length ≤ 100 ∧
      some cexShortUrl ∉
        (scrape_dog_breeds_rkc cexWeb3 cexListing3).documents.map
          (fun d => d.url)) ∧
    ((cexBreedUrl, "Beagle") ∈ cexListing3 ∧
      qualifiesB cexWeb3 cexBreedUrl = true ∧
      some cexBreedUrl ∈
        (scrape_dog_breeds_rkc cexWeb3 cexListing3).documents.map
          (fun d => d.url)) :=
  ⟨⟨by decide, by decide, cexWeb3_disj⟩,
   ⟨by decide, by decide, by decide,
    (scrape_threshold cexWeb3 cexListing3 (by decide) (by decide)
        cexWeb3_disj).2.1 (cexShortUrl, "Chihuahua") (by decide)
      cexShortPage (by decide) (by decide)⟩,
   ⟨by decide, by decide,
    (scrape_threshold cexWeb3 cexListing3 (by decide) (by decide)
        cexWeb3_disj).2.2.1 (cexBreedUrl, "Beagle") (by decide)
      (by decide)⟩⟩

end Capstone
